import Mathlib

/-!
Verification of the five-joint robotic-arm motion code.

The repository contains two variants of the same sketch:
* `src/Main_Code/Main_Code.ino` — embedded below in namespace `MainCode`;
* `src/unnamed/part_000`        — embedded below in namespace `Part000`.

Both share the `Pose` struct, `max5`, `clampAngle` and the step-count
computation of `moveToPose`, which are defined once at top level.  They
differ in their angle-limit constants, in whether `writePose` clamps the
gripper, in the exact expression assigned to each intermediate joint
value, and in the serial command set (`Part000` has `debugMove`).

Modelling conventions:
* C `int` is modelled as unbounded `Int` (the arithmetic here never
  approaches 32-bit overflow for in-range angle data; overflow is
  undefined behaviour in the source and is not modelled).
* C integer division `/` truncates toward zero and is modelled by
  `Int.tdiv`; division by zero is undefined behaviour in C and is
  modelled by returning `none`.
* The loop body computes `float t = (float)i / (float)steps` and
  converts `float` expressions to `int` by truncation toward zero.
  The `float` arithmetic is modelled as exact real (rational)
  arithmetic followed by truncation toward zero, which for steps `i/n`
  and angle-sized operands is the intended value; truncation toward
  zero of the exact quotient is `Int.tdiv`.
* Side effects are modelled as an explicit trace of events: the pose
  handed to each `writePose` call (before clamping), each `delay`, and
  each assignment to the global `currentPose`.
-/

/-- The five-field pose struct (`struct Pose`): one commanded state of the
arm, in degrees. -/
structure Pose where
  base : Int
  shoulder : Int
  elbow : Int
  wrist : Int
  gripper : Int
deriving DecidableEq

/-- One observable side effect of the motion code: a pose passed to
`writePose` (recorded before clamping), a call to `delay(ms)`, or an
assignment to the global `currentPose`. -/
inductive Ev where
  | write : Pose → Ev
  | delayEv : Int → Ev
  | setCurrent : Pose → Ev
deriving DecidableEq

/-- `clampAngle` (identical in both variants):
`if (angle < minVal) return minVal; if (angle > maxVal) return maxVal; return angle;` -/
def clampAngle (angle minVal maxVal : Int) : Int :=
  if angle < minVal then minVal
  else if angle > maxVal then maxVal
  else angle

/-- `max5` (identical in both variants): running maximum of five ints. -/
def max5 (a b c d e : Int) : Int :=
  let m := a
  let m := if b > m then b else m
  let m := if c > m then c else m
  let m := if d > m then d else m
  let m := if e > m then e else m
  m

/-- The `maxDelta` computed by `moveToPose` (identical in both variants):
`max5(abs(deltaBase), …, abs(deltaGripper))` with `delta = target - start`. -/
def maxDeltaOf (start target : Pose) : Int :=
  max5 (|target.base - start.base|) (|target.shoulder - start.shoulder|)
    (|target.elbow - start.elbow|) (|target.wrist - start.wrist|)
    (|target.gripper - start.gripper|)

/-- The `steps` local of `moveToPose` after its guard, assuming the division
was performed: `int steps = maxDelta / stepSize; if (steps < 1) steps = 1;`.
C `/` truncates toward zero (`Int.tdiv`). -/
def stepsVal (maxDelta stepSize : Int) : Int :=
  let s := maxDelta.tdiv stepSize
  if s < 1 then 1 else s

/-- The `steps` computation including the C division-by-zero case:
`maxDelta / stepSize` is undefined behaviour when `stepSize = 0`
(there is no guard before the division in either variant), modelled
as `none`. -/
def stepsOf (maxDelta stepSize : Int) : Option Int :=
  if stepSize = 0 then none else some (stepsVal maxDelta stepSize)

/-- The poses passed to `writePose` during a trace, in order. -/
def writesOf (tr : List Ev) : List Pose :=
  tr.filterMap fun e =>
    match e with
    | Ev.write p => some p
    | _ => none

/-- The arguments of the `delay` calls of a trace, in order. -/
def delaysOf (tr : List Ev) : List Int :=
  tr.filterMap fun e =>
    match e with
    | Ev.delayEv ms => some ms
    | _ => none

/-- The values assigned to the global `currentPose` during a trace, in
order. -/
def setCurrentsOf (tr : List Ev) : List Pose :=
  tr.filterMap fun e =>
    match e with
    | Ev.setCurrent p => some p
    | _ => none

/-- The `for (int i = 1; i <= steps; i++)` loop of `moveToPose`:
for each `i` it calls `writePose(intermediate i)` then `delay(ms)`.
`go i` is the intermediate pose of iteration `i`. -/
def interpEvents (go : Int → Pose) (ms : Int) : Nat → List Ev
  | 0 => []
  | Nat.succ n => interpEvents go ms n ++ [Ev.write (go ((n : Int) + 1)), Ev.delayEv ms]

/-- The full event trace of a completed `moveToPose` body: the
interpolation loop, then `currentPose = target`, then the final
`writePose(currentPose)` snap-to-target. -/
def moveEvents (go : Int → Pose) (target : Pose) (ms steps : Int) : List Ev :=
  interpEvents go ms steps.toNat ++ [Ev.setCurrent target, Ev.write target]

namespace MainCode

/-- Angle limits of `Main_Code.ino` (lines 20-34). -/
def BASE_MIN : Int := 10

def BASE_MAX : Int := 170

def SHOULDER_MIN : Int := 20

def SHOULDER_MAX : Int := 160

def ELBOW_MIN : Int := 10

def ELBOW_MAX : Int := 170

def WRIST_MIN : Int := 10

def WRIST_MAX : Int := 170

def GRIPPER_OPEN : Int := 90

def GRIPPER_CLOSE : Int := 40

/-- `homePose` of `Main_Code.ino` (line 61). -/
def homePose : Pose := ⟨90, 90, 90, 90, GRIPPER_OPEN⟩

/-- `writePose` of `Main_Code.ino` (lines 111-117): the five values issued
to the servo driver.  The four arm joints are clamped; the gripper is
written unclamped (`gripperServo.write(p.gripper)`, line 116). -/
def writePose (p : Pose) : Pose :=
  { base := clampAngle p.base BASE_MIN BASE_MAX
    shoulder := clampAngle p.shoulder SHOULDER_MIN SHOULDER_MAX
    elbow := clampAngle p.elbow ELBOW_MIN ELBOW_MAX
    wrist := clampAngle p.wrist WRIST_MIN WRIST_MAX
    gripper := p.gripper }

/-- One joint of the loop body of `moveToPose` in `Main_Code.ino`
(lines 154-158): `intermediate.base = start.base + deltaBase * t;`
with `float t = i / steps`.  The whole float sum is truncated toward
zero on assignment to the `int` field, so in exact arithmetic the value
is `trunc((start*steps + delta*i) / steps) = (s*q + (t-s)*i).tdiv q`. -/
def interJoint (s t i q : Int) : Int :=
  (s * q + (t - s) * i).tdiv q

/-- The `intermediate` pose of iteration `i` of `moveToPose` in
`Main_Code.ino` (lines 153-158). -/
def intermediate (start target : Pose) (i steps : Int) : Pose :=
  { base := interJoint start.base target.base i steps
    shoulder := interJoint start.shoulder target.shoulder i steps
    elbow := interJoint start.elbow target.elbow i steps
    wrist := interJoint start.wrist target.wrist i steps
    gripper := interJoint start.gripper target.gripper i steps }

/-- `moveToPose` of `Main_Code.ino` (lines 130-167), as a function from
the current `currentPose` value to the event trace and the final
`currentPose` value.  `none` models the undefined division
`maxDelta / stepSize` when `stepSize = 0`. -/
def moveToPose (currentPose target : Pose) (speedDelayMs stepSize : Int) :
    Option (List Ev × Pose) :=
  (stepsOf (maxDeltaOf currentPose target) stepSize).map fun steps =>
    (moveEvents (fun i => intermediate currentPose target i steps) target speedDelayMs steps,
      target)

/-- `openGripper` of `Main_Code.ino` (lines 171-175). -/
def openGripper (currentPose : Pose) (speedDelayMs : Int) : Option (List Ev × Pose) :=
  moveToPose currentPose { currentPose with gripper := GRIPPER_OPEN } speedDelayMs 2

/-- `closeGripper` of `Main_Code.ino` (lines 177-181). -/
def closeGripper (currentPose : Pose) (speedDelayMs : Int) : Option (List Ev × Pose) :=
  moveToPose currentPose { currentPose with gripper := GRIPPER_CLOSE } speedDelayMs 2

end MainCode

namespace Part000

/-- Angle limits of `src/unnamed/part_000` (lines 20-34). -/
def BASE_MIN : Int := 0

def BASE_MAX : Int := 180

def SHOULDER_MIN : Int := 0

def SHOULDER_MAX : Int := 180

def ELBOW_MIN : Int := 0

def ELBOW_MAX : Int := 180

def WRIST_MIN : Int := 0

def WRIST_MAX : Int := 180

def GRIPPER_OPEN : Int := 0

def GRIPPER_CLOSE : Int := 100

/-- `homePose` of `part_000` (line 61). -/
def homePose : Pose := ⟨180, 0, 100, 0, GRIPPER_OPEN⟩

/-- `writePose` of `part_000` (lines 81-89): all four arm joints are
clamped, and the gripper is clamped with
`clampAngle(p.gripper, GRIPPER_OPEN, GRIPPER_CLOSE)` (line 87), the
configured open/close angles taken in literal order as min/max. -/
def writePose (p : Pose) : Pose :=
  { base := clampAngle p.base BASE_MIN BASE_MAX
    shoulder := clampAngle p.shoulder SHOULDER_MIN SHOULDER_MAX
    elbow := clampAngle p.elbow ELBOW_MIN ELBOW_MAX
    wrist := clampAngle p.wrist WRIST_MIN WRIST_MAX
    gripper := clampAngle p.gripper GRIPPER_OPEN GRIPPER_CLOSE }

/-- One joint of the loop body of `moveToPose` in `part_000`
(lines 126-130): `intermediate.base = start.base + (int)(deltaBase * t);`
with `float t = i / steps`.  Only the product `delta * t` is cast to
`int` (truncated toward zero) before being added to the start value, so
in exact arithmetic the value is `s + trunc(delta*i/steps)
= s + ((t-s)*i).tdiv q`. -/
def interJoint (s t i q : Int) : Int :=
  s + ((t - s) * i).tdiv q

/-- The `intermediate` pose of iteration `i` of `moveToPose` in
`part_000` (lines 125-130). -/
def intermediate (start target : Pose) (i steps : Int) : Pose :=
  { base := interJoint start.base target.base i steps
    shoulder := interJoint start.shoulder target.shoulder i steps
    elbow := interJoint start.elbow target.elbow i steps
    wrist := interJoint start.wrist target.wrist i steps
    gripper := interJoint start.gripper target.gripper i steps }

/-- `moveToPose` of `part_000` (lines 102-139); see
`MainCode.moveToPose` for the reading of the result. -/
def moveToPose (currentPose target : Pose) (speedDelayMs stepSize : Int) :
    Option (List Ev × Pose) :=
  (stepsOf (maxDeltaOf currentPose target) stepSize).map fun steps =>
    (moveEvents (fun i => intermediate currentPose target i steps) target speedDelayMs steps,
      target)

/-- `openGripper` of `part_000` (lines 143-147). -/
def openGripper (currentPose : Pose) (speedDelayMs : Int) : Option (List Ev × Pose) :=
  moveToPose currentPose { currentPose with gripper := GRIPPER_OPEN } speedDelayMs 2

/-- `closeGripper` of `part_000` (lines 149-153). -/
def closeGripper (currentPose : Pose) (speedDelayMs : Int) : Option (List Ev × Pose) :=
  moveToPose currentPose { currentPose with gripper := GRIPPER_CLOSE } speedDelayMs 2

end Part000

/-- Whitespace as recognised by `sscanf` conversions and Arduino
`String::trim`. -/
def isWs (c : Char) : Bool :=
  c == ' ' || c == '\t' || c == '\n' || c == '\r'

/-- Arduino `String::trim()`: remove leading and trailing whitespace. -/
def trim (cs : List Char) : List Char :=
  ((cs.dropWhile isWs).reverse.dropWhile isWs).reverse

/-- Numeric value of a digit string. -/
def digitsVal (ds : List Char) : Int :=
  ds.foldl (fun acc c => acc * 10 + ((c.toNat : Int) - ('0'.toNat : Int))) 0

/-- One C `sscanf` `%d` conversion: skip whitespace, then an optional
sign followed by at least one decimal digit; `none` on matching
failure.  Returns the parsed value and the unconsumed input. -/
def scanInt (cs : List Char) : Option (Int × List Char) :=
  match cs.dropWhile isWs with
  | '-' :: rest =>
      if (rest.takeWhile Char.isDigit).isEmpty then none
      else some (-(digitsVal (rest.takeWhile Char.isDigit)), rest.dropWhile Char.isDigit)
  | '+' :: rest =>
      if (rest.takeWhile Char.isDigit).isEmpty then none
      else some (digitsVal (rest.takeWhile Char.isDigit), rest.dropWhile Char.isDigit)
  | other =>
      if (other.takeWhile Char.isDigit).isEmpty then none
      else some (digitsVal (other.takeWhile Char.isDigit), other.dropWhile Char.isDigit)

/-- `sscanf(line, "%d %d %d %d %d", &b, &s, &e, &w, &g)` of
`part_000` line 176: five successive `%d` conversions (blanks in the
format skip whitespace, as does `%d` itself).  `some` exactly when the
call returns 5; `none` models any return value `≠ 5` (the conversions
stop at the first failure). -/
def sscanf5 (cs : List Char) : Option (Int × Int × Int × Int × Int) := do
  let (b, cs) ← scanInt cs
  let (s, cs) ← scanInt cs
  let (e, cs) ← scanInt cs
  let (w, cs) ← scanInt cs
  let (g, _) ← scanInt cs
  pure (b, s, e, w, g)

/-- The whitespace-separated tokens of a line (used only to state the
claim about "token count"; the source itself never tokenises). -/
def tokens (cs : List Char) : List (List Char) :=
  let p := cs.foldr
    (fun c (acc : List Char × List (List Char)) =>
      if isWs c then ([], if acc.1.isEmpty then acc.2 else acc.1 :: acc.2)
      else (c :: acc.1, acc.2))
    ([], [])
  if p.1.isEmpty then p.2 else p.1 :: p.2

/-- A token that is an integer literal: optional sign, one or more
digits, nothing else. -/
def isIntTok (t : List Char) : Bool :=
  match t with
  | [] => false
  | '-' :: rest => !rest.isEmpty && rest.all Char.isDigit
  | '+' :: rest => !rest.isEmpty && rest.all Char.isDigit
  | _ => t.all Char.isDigit

/-- A line consisting of exactly five integer tokens. -/
def fiveIntLine (cs : List Char) : Bool :=
  (tokens cs).length == 5 && (tokens cs).all isIntTok

namespace Part000

/-- `debugMove` of `part_000` (lines 172-201): trims the line, runs the
five `%d` conversions, and on `parsed != 5` prints a format error and
returns without motion (modelled as `none`: no `writePose` call, no
`delay`, `currentPose` untouched).  Otherwise it builds the target from
the five parsed values and delegates to `moveToPose(target, 8, 2)`. -/
def debugMove (currentPose : Pose) (line : List Char) : Option (List Ev × Pose) :=
  match sscanf5 (trim line) with
  | none => none
  | some (b, s, e, w, g) => moveToPose currentPose ⟨b, s, e, w, g⟩ 8 2

end Part000

/-- A pair of interpolated joint values `x` (at the earlier step) and `y`
(at the later step) is monotone from `s` toward `t` and stays between
them: non-decreasing when the delta is non-negative, non-increasing when
it is non-positive, and both values within `[min s t, max s t]`. -/
def monoBetween (s t x y : Int) : Prop :=
  (0 ≤ t - s → x ≤ y) ∧ (t - s ≤ 0 → y ≤ x) ∧
  min s t ≤ x ∧ x ≤ max s t ∧ min s t ≤ y ∧ y ≤ max s t

/-- `monoBetween`, on all five joints of two poses interpolated from
`cur` toward `tgt`. -/
def poseMonoBetween (cur tgt p q : Pose) : Prop :=
  monoBetween cur.base tgt.base p.base q.base ∧
  monoBetween cur.shoulder tgt.shoulder p.shoulder q.shoulder ∧
  monoBetween cur.elbow tgt.elbow p.elbow q.elbow ∧
  monoBetween cur.wrist tgt.wrist p.wrist q.wrist ∧
  monoBetween cur.gripper tgt.gripper p.gripper q.gripper

/-- Side-effect accounting of one completed `moveToPose` run `r` with
step count `stepsN` toward `tgt`: `stepsN + 1` calls to `writePose`,
`stepsN` blocking delays, exactly one assignment to `currentPose`, that
assignment as the second-to-last action (followed only by the final
write), and final `currentPose` equal to `tgt`. -/
def moveTraceSpec (tgt : Pose) (stepsN : Nat) (r : List Ev × Pose) : Prop :=
  (writesOf r.1).length = stepsN + 1 ∧
  (delaysOf r.1).length = stepsN ∧
  setCurrentsOf r.1 = [tgt] ∧
  r.1.drop (r.1.length - 2) = [Ev.setCurrent tgt, Ev.write tgt] ∧
  r.2 = tgt

/-- The exact per-step emission formulas of the two variants, written
out: in `part_000` the `i`-th emitted pose (before clamping) is
`start[j] + trunc(delta[j]·i/steps)` on each joint; in `Main_Code.ino`
it is `trunc(start[j] + delta[j]·i/steps)`, the whole sum truncated;
both loops are followed by the final emission of the exact target. -/
def emittedFormulaProp (cur tgt : Pose) (ms ss : Int) : Prop :=
  let n := stepsVal (maxDeltaOf cur tgt) ss
  (Part000.moveToPose cur tgt ms ss).map (fun r => writesOf r.1) =
    some (((List.range n.toNat).map fun (k : Nat) =>
      (⟨cur.base + ((tgt.base - cur.base) * ((k : Int) + 1)).tdiv n,
        cur.shoulder + ((tgt.shoulder - cur.shoulder) * ((k : Int) + 1)).tdiv n,
        cur.elbow + ((tgt.elbow - cur.elbow) * ((k : Int) + 1)).tdiv n,
        cur.wrist + ((tgt.wrist - cur.wrist) * ((k : Int) + 1)).tdiv n,
        cur.gripper + ((tgt.gripper - cur.gripper) * ((k : Int) + 1)).tdiv n⟩ : Pose)) ++ [tgt]) ∧
  (MainCode.moveToPose cur tgt ms ss).map (fun r => writesOf r.1) =
    some (((List.range n.toNat).map fun (k : Nat) =>
      (⟨(cur.base * n + (tgt.base - cur.base) * ((k : Int) + 1)).tdiv n,
        (cur.shoulder * n + (tgt.shoulder - cur.shoulder) * ((k : Int) + 1)).tdiv n,
        (cur.elbow * n + (tgt.elbow - cur.elbow) * ((k : Int) + 1)).tdiv n,
        (cur.wrist * n + (tgt.wrist - cur.wrist) * ((k : Int) + 1)).tdiv n,
        (cur.gripper * n + (tgt.gripper - cur.gripper) * ((k : Int) + 1)).tdiv n⟩ : Pose)) ++ [tgt])

/-- Monotone, non-overshooting interpolation in both variants: the poses
emitted by `moveToPose` are the loop's intermediates followed by the
target, and for step indices `i ≤ j` within range every joint of the
intermediates moves monotonically from `cur` toward `tgt` without
leaving `[min, max]` of the two endpoint values. -/
def interpMonoProp (cur tgt : Pose) (ms ss i j : Int) : Prop :=
  let n := stepsVal (maxDeltaOf cur tgt) ss
  (MainCode.moveToPose cur tgt ms ss).map (fun r => writesOf r.1) =
    some (((List.range n.toNat).map fun (k : Nat) =>
      MainCode.intermediate cur tgt ((k : Int) + 1) n) ++ [tgt]) ∧
  (Part000.moveToPose cur tgt ms ss).map (fun r => writesOf r.1) =
    some (((List.range n.toNat).map fun (k : Nat) =>
      Part000.intermediate cur tgt ((k : Int) + 1) n) ++ [tgt]) ∧
  poseMonoBetween cur tgt (MainCode.intermediate cur tgt i n) (MainCode.intermediate cur tgt j n) ∧
  poseMonoBetween cur tgt (Part000.intermediate cur tgt i n) (Part000.intermediate cur tgt j n)

theorem max5_eq_max (a b c d e : Int) :
    max5 a b c d e = max (max (max (max a b) c) d) e := by
  simp only [max5, max_def]
  split_ifs <;> omega

theorem maxDeltaOf_nonneg (s t : Pose) : 0 ≤ maxDeltaOf s t := by
  rw [maxDeltaOf, max5_eq_max]
  have h : (0 : Int) ≤ |t.base - s.base| := abs_nonneg _
  calc (0 : Int) ≤ |t.base - s.base| := h
    _ ≤ _ := le_trans (le_trans (le_trans (le_max_left _ _) (le_max_left _ _))
        (le_max_left _ _)) (le_max_left _ _)

theorem one_le_stepsVal (md ss : Int) : 1 ≤ stepsVal md ss := by
  simp only [stepsVal]
  split <;> omega

theorem tdiv_neg_eq (a q : Int) : a.tdiv q = -((-a).tdiv q) := by
  rw [Int.neg_tdiv, neg_neg]

theorem tdiv_mono_num {a b q : Int} (hq : 0 < q) (hab : a ≤ b) :
    a.tdiv q ≤ b.tdiv q := by
  rcases le_or_lt 0 a with ha | ha
  · rw [Int.tdiv_eq_ediv ha hq.le, Int.tdiv_eq_ediv (le_trans ha hab) hq.le]
    exact Int.ediv_le_ediv hq hab
  · rcases le_or_lt 0 b with hb | hb
    · have h1 : a.tdiv q ≤ 0 := by
        rw [tdiv_neg_eq, Int.tdiv_eq_ediv (by omega) hq.le]
        have h2 : 0 ≤ (-a) / q := Int.ediv_nonneg (by omega) hq.le
        omega
      have h3 : 0 ≤ b.tdiv q := by
        rw [Int.tdiv_eq_ediv hb hq.le]
        exact Int.ediv_nonneg hb hq.le
      omega
    · rw [tdiv_neg_eq, tdiv_neg_eq b]
      have h4 : (-b).tdiv q ≤ (-a).tdiv q := by
        rw [Int.tdiv_eq_ediv (by omega) hq.le, Int.tdiv_eq_ediv (by omega) hq.le]
        exact Int.ediv_le_ediv hq (by omega)
      omega

theorem le_tdiv_of_mul_le {s N q : Int} (hq : 0 < q) (h : s * q ≤ N) :
    s ≤ N.tdiv q := by
  rcases le_or_lt 0 N with hN | hN
  · rw [Int.tdiv_eq_ediv hN hq.le]
    exact (Int.le_ediv_iff_mul_le hq).mpr h
  · rw [tdiv_neg_eq, Int.tdiv_eq_ediv (by omega) hq.le]
    have h2 : (-N) / q ≤ -s := by
      by_contra hc
      push_neg at hc
      have h3 := (Int.le_ediv_iff_mul_le hq).mp (by omega : -s + 1 ≤ (-N) / q)
      have h4 : (-s + 1) * q = -(s * q) + q := by ring
      linarith
    linarith

theorem tdiv_le_of_le_mul {N t q : Int} (hq : 0 < q) (h : N ≤ t * q) :
    N.tdiv q ≤ t := by
  rcases le_or_lt 0 N with hN | hN
  · rw [Int.tdiv_eq_ediv hN hq.le]
    by_contra hc
    push_neg at hc
    have h3 := (Int.le_ediv_iff_mul_le hq).mp (by omega : t + 1 ≤ N / q)
    have h4 : (t + 1) * q = t * q + q := by ring
    linarith
  · rw [tdiv_neg_eq, Int.tdiv_eq_ediv (by omega) hq.le]
    rcases le_or_lt 0 t with ht | ht
    · have h2 : 0 ≤ (-N) / q := Int.ediv_nonneg (by omega) hq.le
      linarith
    · have h2 : -t ≤ (-N) / q := by
        refine (Int.le_ediv_iff_mul_le hq).mpr ?_
        have h3 : -t * q = -(t * q) := by ring
        linarith
      linarith

theorem writesOf_append (l1 l2 : List Ev) :
    writesOf (l1 ++ l2) = writesOf l1 ++ writesOf l2 :=
  List.filterMap_append l1 l2 _

theorem delaysOf_append (l1 l2 : List Ev) :
    delaysOf (l1 ++ l2) = delaysOf l1 ++ delaysOf l2 :=
  List.filterMap_append l1 l2 _

theorem setCurrentsOf_append (l1 l2 : List Ev) :
    setCurrentsOf (l1 ++ l2) = setCurrentsOf l1 ++ setCurrentsOf l2 :=
  List.filterMap_append l1 l2 _

theorem writesOf_interpEvents (go : Int → Pose) (ms : Int) (n : Nat) :
    writesOf (interpEvents go ms n) = (List.range n).map fun (k : Nat) => go ((k : Int) + 1) := by
  induction n with
  | zero => rfl
  | succ n ih =>
      rw [interpEvents, writesOf_append, ih, List.range_succ, List.map_append]
      rfl

theorem delaysOf_interpEvents (go : Int → Pose) (ms : Int) (n : Nat) :
    delaysOf (interpEvents go ms n) = List.replicate n ms := by
  induction n with
  | zero => rfl
  | succ n ih =>
      rw [interpEvents, delaysOf_append, ih, List.replicate_succ']
      rfl

theorem setCurrentsOf_interpEvents (go : Int → Pose) (ms : Int) (n : Nat) :
    setCurrentsOf (interpEvents go ms n) = [] := by
  induction n with
  | zero => rfl
  | succ n ih =>
      rw [interpEvents, setCurrentsOf_append, ih]
      rfl

theorem length_interpEvents (go : Int → Pose) (ms : Int) (n : Nat) :
    (interpEvents go ms n).length = 2 * n := by
  induction n with
  | zero => rfl
  | succ n ih =>
      rw [interpEvents, List.length_append, ih]
      simp
      omega

theorem writesOf_moveEvents (go : Int → Pose) (tgt : Pose) (ms steps : Int) :
    writesOf (moveEvents go tgt ms steps) =
      ((List.range steps.toNat).map fun (k : Nat) => go ((k : Int) + 1)) ++ [tgt] := by
  rw [moveEvents, writesOf_append, writesOf_interpEvents]
  rfl

theorem delaysOf_moveEvents (go : Int → Pose) (tgt : Pose) (ms steps : Int) :
    delaysOf (moveEvents go tgt ms steps) = List.replicate steps.toNat ms := by
  rw [moveEvents, delaysOf_append, delaysOf_interpEvents]
  simp [delaysOf]

theorem setCurrentsOf_moveEvents (go : Int → Pose) (tgt : Pose) (ms steps : Int) :
    setCurrentsOf (moveEvents go tgt ms steps) = [tgt] := by
  rw [moveEvents, setCurrentsOf_append, setCurrentsOf_interpEvents]
  rfl

theorem length_moveEvents (go : Int → Pose) (tgt : Pose) (ms steps : Int) :
    (moveEvents go tgt ms steps).length = 2 * steps.toNat + 2 := by
  rw [moveEvents, List.length_append, length_interpEvents]
  rfl

theorem drop_moveEvents (go : Int → Pose) (tgt : Pose) (ms steps : Int) :
    (moveEvents go tgt ms steps).drop ((moveEvents go tgt ms steps).length - 2) =
      [Ev.setCurrent tgt, Ev.write tgt] := by
  rw [length_moveEvents, moveEvents]
  have h : 2 * steps.toNat + 2 - 2 = (interpEvents go ms steps.toNat).length := by
    rw [length_interpEvents]
    omega
  rw [h, List.drop_left]

theorem MainCode.moveToPose_eq_mc (cur tgt : Pose) (ms ss : Int) (h : ss ≠ 0) :
    MainCode.moveToPose cur tgt ms ss =
      some (moveEvents
          (fun i => MainCode.intermediate cur tgt i (stepsVal (maxDeltaOf cur tgt) ss))
          tgt ms (stepsVal (maxDeltaOf cur tgt) ss), tgt) := by
  rw [MainCode.moveToPose, stepsOf, if_neg h]
  rfl

theorem Part000.moveToPose_eq_p0 (cur tgt : Pose) (ms ss : Int) (h : ss ≠ 0) :
    Part000.moveToPose cur tgt ms ss =
      some (moveEvents
          (fun i => Part000.intermediate cur tgt i (stepsVal (maxDeltaOf cur tgt) ss))
          tgt ms (stepsVal (maxDeltaOf cur tgt) ss), tgt) := by
  rw [Part000.moveToPose, stepsOf, if_neg h]
  rfl

theorem MainCode.moveToPose_snd_mc (cur tgt : Pose) (ms ss : Int) (h : ss ≠ 0) :
    (MainCode.moveToPose cur tgt ms ss).map Prod.snd = some tgt := by
  rw [MainCode.moveToPose_eq_mc cur tgt ms ss h]
  rfl

theorem Part000.moveToPose_snd_p0 (cur tgt : Pose) (ms ss : Int) (h : ss ≠ 0) :
    (Part000.moveToPose cur tgt ms ss).map Prod.snd = some tgt := by
  rw [Part000.moveToPose_eq_p0 cur tgt ms ss h]
  rfl

theorem MainCode.interJoint_mono_mc (s t i j q : Int) (hq : 0 < q) (hij : i ≤ j) :
    (0 ≤ t - s → MainCode.interJoint s t i q ≤ MainCode.interJoint s t j q) ∧
    (t - s ≤ 0 → MainCode.interJoint s t j q ≤ MainCode.interJoint s t i q) := by
  unfold MainCode.interJoint
  constructor
  · intro hd
    exact tdiv_mono_num hq (add_le_add_left (mul_le_mul_of_nonneg_left hij hd) _)
  · intro hd
    exact tdiv_mono_num hq (add_le_add_left (mul_le_mul_of_nonpos_left hij hd) _)

theorem MainCode.interJoint_bounds_mc (s t i q : Int) (hq : 0 < q) (h1 : 1 ≤ i) (hiq : i ≤ q) :
    min s t ≤ MainCode.interJoint s t i q ∧ MainCode.interJoint s t i q ≤ max s t := by
  unfold MainCode.interJoint
  rcases le_total s t with hst | hst
  · rw [min_eq_left hst, max_eq_right hst]
    constructor
    · refine le_tdiv_of_mul_le hq ?_
      have h2 : 0 ≤ (t - s) * i := mul_nonneg (by omega) (by omega)
      linarith
    · refine tdiv_le_of_le_mul hq ?_
      have h2 : (t - s) * i ≤ (t - s) * q := mul_le_mul_of_nonneg_left hiq (by omega)
      have h3 : t * q = s * q + (t - s) * q := by ring
      linarith
  · rw [min_eq_right hst, max_eq_left hst]
    constructor
    · refine le_tdiv_of_mul_le hq ?_
      have h2 : (t - s) * q ≤ (t - s) * i := mul_le_mul_of_nonpos_left hiq (by omega)
      have h3 : t * q = s * q + (t - s) * q := by ring
      linarith
    · refine tdiv_le_of_le_mul hq ?_
      have h2 : (t - s) * i ≤ 0 := mul_nonpos_iff.mpr (Or.inr ⟨by omega, by omega⟩)
      linarith

theorem Part000.interJoint_mono_p0 (s t i j q : Int) (hq : 0 < q) (hij : i ≤ j) :
    (0 ≤ t - s → Part000.interJoint s t i q ≤ Part000.interJoint s t j q) ∧
    (t - s ≤ 0 → Part000.interJoint s t j q ≤ Part000.interJoint s t i q) := by
  unfold Part000.interJoint
  constructor
  · intro hd
    exact add_le_add_left (tdiv_mono_num hq (mul_le_mul_of_nonneg_left hij hd)) _
  · intro hd
    exact add_le_add_left (tdiv_mono_num hq (mul_le_mul_of_nonpos_left hij hd)) _

theorem Part000.interJoint_bounds_p0 (s t i q : Int) (hq : 0 < q) (h1 : 1 ≤ i) (hiq : i ≤ q) :
    min s t ≤ Part000.interJoint s t i q ∧ Part000.interJoint s t i q ≤ max s t := by
  unfold Part000.interJoint
  rcases le_total s t with hst | hst
  · rw [min_eq_left hst, max_eq_right hst]
    constructor
    · have h2 : (0 : Int) ≤ ((t - s) * i).tdiv q := by
        refine le_tdiv_of_mul_le hq ?_
        have h3 : 0 ≤ (t - s) * i := mul_nonneg (by omega) (by omega)
        linarith
      linarith
    · have h2 : ((t - s) * i).tdiv q ≤ t - s := by
        refine tdiv_le_of_le_mul hq ?_
        exact mul_le_mul_of_nonneg_left hiq (by omega)
      linarith
  · rw [min_eq_right hst, max_eq_left hst]
    constructor
    · have h2 : t - s ≤ ((t - s) * i).tdiv q := by
        refine le_tdiv_of_mul_le hq ?_
        exact mul_le_mul_of_nonpos_left hiq (by omega)
      linarith
    · have h2 : ((t - s) * i).tdiv q ≤ 0 := by
        refine tdiv_le_of_le_mul hq ?_
        have h3 : (t - s) * i ≤ 0 := mul_nonpos_iff.mpr (Or.inr ⟨by omega, by omega⟩)
        linarith
      linarith

theorem MainCode.interJoint_monoBetween_mc (s t i j q : Int) (hq : 0 < q)
    (h1 : 1 ≤ i) (hij : i ≤ j) (hjq : j ≤ q) :
    monoBetween s t (MainCode.interJoint s t i q) (MainCode.interJoint s t j q) := by
  obtain ⟨m1, m2⟩ := MainCode.interJoint_mono_mc s t i j q hq hij
  obtain ⟨b1, b2⟩ := MainCode.interJoint_bounds_mc s t i q hq h1 (by omega)
  obtain ⟨b3, b4⟩ := MainCode.interJoint_bounds_mc s t j q hq (by omega) hjq
  exact ⟨m1, m2, b1, b2, b3, b4⟩

theorem Part000.interJoint_monoBetween_p0 (s t i j q : Int) (hq : 0 < q)
    (h1 : 1 ≤ i) (hij : i ≤ j) (hjq : j ≤ q) :
    monoBetween s t (Part000.interJoint s t i q) (Part000.interJoint s t j q) := by
  obtain ⟨m1, m2⟩ := Part000.interJoint_mono_p0 s t i j q hq hij
  obtain ⟨b1, b2⟩ := Part000.interJoint_bounds_p0 s t i q hq h1 (by omega)
  obtain ⟨b3, b4⟩ := Part000.interJoint_bounds_p0 s t j q hq (by omega) hjq
  exact ⟨m1, m2, b1, b2, b3, b4⟩

theorem MainCode.intermediate_monoBetween_mc (cur tgt : Pose) (i j q : Int) (hq : 0 < q)
    (h1 : 1 ≤ i) (hij : i ≤ j) (hjq : j ≤ q) :
    poseMonoBetween cur tgt (MainCode.intermediate cur tgt i q)
      (MainCode.intermediate cur tgt j q) :=
  ⟨MainCode.interJoint_monoBetween_mc _ _ i j q hq h1 hij hjq,
    MainCode.interJoint_monoBetween_mc _ _ i j q hq h1 hij hjq,
    MainCode.interJoint_monoBetween_mc _ _ i j q hq h1 hij hjq,
    MainCode.interJoint_monoBetween_mc _ _ i j q hq h1 hij hjq,
    MainCode.interJoint_monoBetween_mc _ _ i j q hq h1 hij hjq⟩

theorem Part000.intermediate_monoBetween_p0 (cur tgt : Pose) (i j q : Int) (hq : 0 < q)
    (h1 : 1 ≤ i) (hij : i ≤ j) (hjq : j ≤ q) :
    poseMonoBetween cur tgt (Part000.intermediate cur tgt i q)
      (Part000.intermediate cur tgt j q) :=
  ⟨Part000.interJoint_monoBetween_p0 _ _ i j q hq h1 hij hjq,
    Part000.interJoint_monoBetween_p0 _ _ i j q hq h1 hij hjq,
    Part000.interJoint_monoBetween_p0 _ _ i j q hq h1 hij hjq,
    Part000.interJoint_monoBetween_p0 _ _ i j q hq h1 hij hjq,
    Part000.interJoint_monoBetween_p0 _ _ i j q hq h1 hij hjq⟩

theorem clampAngle_bounds (v lo hi : Int) (h : lo ≤ hi) :
    lo ≤ clampAngle v lo hi ∧ clampAngle v lo hi ≤ hi := by
  unfold clampAngle
  split_ifs <;> omega

theorem stepsVal_eq_max_fdiv (md ss : Int) (hmd : 0 ≤ md) (hss : 0 < ss) :
    stepsVal md ss = max 1 (md.fdiv ss) := by
  have h1 : md.tdiv ss = md / ss := Int.tdiv_eq_ediv hmd hss.le
  have h2 : md.fdiv ss = md / ss := Int.fdiv_eq_ediv md hss.le
  simp only [stepsVal, h1, h2, max_def]
  split_ifs <;> omega

theorem MainCode.moveToPose_writes_length_mc (cur tgt : Pose) (ms ss : Int) (h : ss ≠ 0) :
    (MainCode.moveToPose cur tgt ms ss).map (fun r => (writesOf r.1).length) =
      some ((stepsVal (maxDeltaOf cur tgt) ss).toNat + 1) := by
  rw [MainCode.moveToPose_eq_mc cur tgt ms ss h]
  simp [writesOf_moveEvents]

theorem Part000.moveToPose_writes_length_p0 (cur tgt : Pose) (ms ss : Int) (h : ss ≠ 0) :
    (Part000.moveToPose cur tgt ms ss).map (fun r => (writesOf r.1).length) =
      some ((stepsVal (maxDeltaOf cur tgt) ss).toNat + 1) := by
  rw [Part000.moveToPose_eq_p0 cur tgt ms ss h]
  simp [writesOf_moveEvents]

/-- C1: For every start pose, every target pose (including targets with
out-of-range components) and every positive step size, a completed
`moveToPose` leaves the global `currentPose` exactly equal to the
requested target pose — component-wise on all five joint fields, not an
approximation — in both variants. -/
theorem moveToPose_currentPose_eq_target (cur tgt : Pose) (ms ss : Int) (h : 0 < ss) :
    (MainCode.moveToPose cur tgt ms ss).map Prod.snd = some tgt ∧
    (Part000.moveToPose cur tgt ms ss).map Prod.snd = some tgt :=
  ⟨MainCode.moveToPose_snd_mc cur tgt ms ss (by omega),
    Part000.moveToPose_snd_p0 cur tgt ms ss (by omega)⟩

theorem moveToPose_currentPose_eq_target_witness :
    (0 : Int) < 2 ∧
    ((MainCode.moveToPose MainCode.homePose ⟨999, -50, 0, 200, 300⟩ 10 2).map Prod.snd =
        some ⟨999, -50, 0, 200, 300⟩ ∧
      (Part000.moveToPose MainCode.homePose ⟨999, -50, 0, 200, 300⟩ 10 2).map Prod.snd =
        some ⟨999, -50, 0, 200, 300⟩) :=
  ⟨by decide,
    moveToPose_currentPose_eq_target MainCode.homePose ⟨999, -50, 0, 200, 300⟩ 10 2 (by decide)⟩

/-- C2: the claimed guard for `stepSize ≤ 0` is absent for `stepSize = 0`:
both variants compute `steps = maxDelta / stepSize` before the
`steps < 1` check, so a zero step size divides by zero (undefined
behaviour, modelled `none`) instead of being treated as 1; the claimed
"steps forced to at least 1" never happens on this input. -/
theorem moveToPose_stepSize_zero_divides :
    MainCode.moveToPose MainCode.homePose ⟨100, 90, 90, 90, 90⟩ 10 0 = none ∧
    Part000.moveToPose Part000.homePose Part000.homePose 10 0 = none := by
  decide

/-- C3 counterexample: in `Main_Code.ino` the gripper value is not clamped
at all — `writePose` on gripper input 300 issues 300 to the hardware,
strictly above `max(open, close) = max 90 40 = 90`, refuting the claim
that every issued value lies in the normalized gripper range. -/
theorem writePose_gripper_unclamped_cex :
    (MainCode.writePose ⟨90, 90, 90, 90, 300⟩).gripper = 300 ∧
    max MainCode.GRIPPER_OPEN MainCode.GRIPPER_CLOSE <
      (MainCode.writePose ⟨90, 90, 90, 90, 300⟩).gripper := by
  decide

/-- C3 amended: for every pose passed to `writePose`, in both variants the
four arm-joint values issued to the hardware are clamped into their
configured inclusive `[min, max]` ranges; the gripper is clamped into
`[min(open, close), max(open, close)]` in the `part_000` variant only,
while the `Main_Code.ino` variant forwards the gripper value unchanged
(unclamped). -/
theorem writePose_clamped_amended (p : Pose) :
    (MainCode.BASE_MIN ≤ (MainCode.writePose p).base ∧
      (MainCode.writePose p).base ≤ MainCode.BASE_MAX) ∧
    (MainCode.SHOULDER_MIN ≤ (MainCode.writePose p).shoulder ∧
      (MainCode.writePose p).shoulder ≤ MainCode.SHOULDER_MAX) ∧
    (MainCode.ELBOW_MIN ≤ (MainCode.writePose p).elbow ∧
      (MainCode.writePose p).elbow ≤ MainCode.ELBOW_MAX) ∧
    (MainCode.WRIST_MIN ≤ (MainCode.writePose p).wrist ∧
      (MainCode.writePose p).wrist ≤ MainCode.WRIST_MAX) ∧
    (MainCode.writePose p).gripper = p.gripper ∧
    (Part000.BASE_MIN ≤ (Part000.writePose p).base ∧
      (Part000.writePose p).base ≤ Part000.BASE_MAX) ∧
    (Part000.SHOULDER_MIN ≤ (Part000.writePose p).shoulder ∧
      (Part000.writePose p).shoulder ≤ Part000.SHOULDER_MAX) ∧
    (Part000.ELBOW_MIN ≤ (Part000.writePose p).elbow ∧
      (Part000.writePose p).elbow ≤ Part000.ELBOW_MAX) ∧
    (Part000.WRIST_MIN ≤ (Part000.writePose p).wrist ∧
      (Part000.writePose p).wrist ≤ Part000.WRIST_MAX) ∧
    (min Part000.GRIPPER_OPEN Part000.GRIPPER_CLOSE ≤ (Part000.writePose p).gripper ∧
      (Part000.writePose p).gripper ≤ max Part000.GRIPPER_OPEN Part000.GRIPPER_CLOSE) := by
  refine ⟨clampAngle_bounds _ _ _ (by decide), clampAngle_bounds _ _ _ (by decide),
    clampAngle_bounds _ _ _ (by decide), clampAngle_bounds _ _ _ (by decide), rfl,
    clampAngle_bounds _ _ _ (by decide), clampAngle_bounds _ _ _ (by decide),
    clampAngle_bounds _ _ _ (by decide), clampAngle_bounds _ _ _ (by decide), ?_⟩
  have h := clampAngle_bounds p.gripper Part000.GRIPPER_OPEN Part000.GRIPPER_CLOSE (by decide)
  constructor
  · exact le_trans (min_le_left _ _) h.1
  · exact le_trans h.2 (le_max_right _ _)

/-- C4: For every start and target pose and every positive step size,
`maxDelta` is the maximum of the five absolute per-joint differences and
the shared step count is `max(1, floor(maxDelta / stepSize))`; both
variants issue exactly that shared count plus one writes. -/
theorem maxDelta_steps_formula (s t : Pose) (ms ss : Int) (h : 0 < ss) :
    maxDeltaOf s t =
      max (max (max (max (|t.base - s.base|) (|t.shoulder - s.shoulder|))
        (|t.elbow - s.elbow|)) (|t.wrist - s.wrist|)) (|t.gripper - s.gripper|) ∧
    stepsOf (maxDeltaOf s t) ss = some (max 1 ((maxDeltaOf s t).fdiv ss)) ∧
    (MainCode.moveToPose s t ms ss).map (fun r => (writesOf r.1).length) =
      some ((max 1 ((maxDeltaOf s t).fdiv ss)).toNat + 1) ∧
    (Part000.moveToPose s t ms ss).map (fun r => (writesOf r.1).length) =
      some ((max 1 ((maxDeltaOf s t).fdiv ss)).toNat + 1) := by
  have hmf : stepsVal (maxDeltaOf s t) ss = max 1 ((maxDeltaOf s t).fdiv ss) :=
    stepsVal_eq_max_fdiv _ _ (maxDeltaOf_nonneg s t) h
  refine ⟨by rw [maxDeltaOf, max5_eq_max], ?_, ?_, ?_⟩
  · rw [stepsOf, if_neg (by omega : ss ≠ 0), hmf]
  · rw [MainCode.moveToPose_writes_length_mc s t ms ss (by omega), hmf]
  · rw [Part000.moveToPose_writes_length_p0 s t ms ss (by omega), hmf]

theorem maxDelta_steps_formula_witness :
    (0 : Int) < 2 ∧
    (maxDeltaOf ⟨0, 0, 0, 0, 0⟩ ⟨100, 0, 0, 0, 0⟩ =
      max (max (max (max (|(100 : Int) - 0|) (|(0 : Int) - 0|)) (|(0 : Int) - 0|))
        (|(0 : Int) - 0|)) (|(0 : Int) - 0|) ∧
    stepsOf (maxDeltaOf ⟨0, 0, 0, 0, 0⟩ ⟨100, 0, 0, 0, 0⟩) 2 =
      some (max 1 ((maxDeltaOf ⟨0, 0, 0, 0, 0⟩ ⟨100, 0, 0, 0, 0⟩).fdiv 2)) ∧
    (MainCode.moveToPose ⟨0, 0, 0, 0, 0⟩ ⟨100, 0, 0, 0, 0⟩ 10 2).map
        (fun r => (writesOf r.1).length) =
      some ((max 1 ((maxDeltaOf ⟨0, 0, 0, 0, 0⟩ ⟨100, 0, 0, 0, 0⟩).fdiv 2)).toNat + 1) ∧
    (Part000.moveToPose ⟨0, 0, 0, 0, 0⟩ ⟨100, 0, 0, 0, 0⟩ 10 2).map
        (fun r => (writesOf r.1).length) =
      some ((max 1 ((maxDeltaOf ⟨0, 0, 0, 0, 0⟩ ⟨100, 0, 0, 0, 0⟩).fdiv 2)).toNat + 1)) :=
  ⟨by decide, maxDelta_steps_formula ⟨0, 0, 0, 0, 0⟩ ⟨100, 0, 0, 0, 0⟩ 10 2 (by decide)⟩

/-- C5 counterexample: in `Main_Code.ino` the truncation applies to the
whole float sum, not to the increment alone.  Moving from base 90 toward
base 85 with step size 2 gives steps = 2, and the first emitted base is
`trunc(90 + (-5)·(1/2)) = trunc(87.5) = 87`, whereas the claimed formula
`start + trunc(delta·i/steps)` gives `90 + trunc(-2.5) = 88`. -/
theorem intermediate_formula_cex :
    (MainCode.moveToPose ⟨90, 90, 90, 90, 40⟩ ⟨85, 90, 90, 90, 40⟩ 10 2).map
        (fun r => (writesOf r.1).head?) = some (some ⟨87, 90, 90, 90, 40⟩) ∧
    (87 : Int) ≠ 90 + Int.tdiv ((85 - 90) * 1) 2 := by
  decide

/-- C5 amended: for every start and target pose and every nonzero step
size, the `i`-th emitted intermediate pose (before Pose Writer clamping)
is, per joint, `start[j] + round_toward_zero(delta[j]·i/steps)` in the
`part_000` variant, while in the `Main_Code.ino` variant it is
`round_toward_zero(start[j] + delta[j]·i/steps)` — the whole sum
truncated — which differs by one when `delta[j]·i/steps` has a negative
fractional part; each loop is followed by the exact-target emission. -/
theorem emitted_writes_formula (cur tgt : Pose) (ms ss : Int) (h : ss ≠ 0) :
    emittedFormulaProp cur tgt ms ss := by
  simp only [emittedFormulaProp]
  rw [Part000.moveToPose_eq_p0 cur tgt ms ss h, MainCode.moveToPose_eq_mc cur tgt ms ss h]
  constructor <;>
    simp [writesOf_moveEvents, Part000.intermediate, MainCode.intermediate,
      Part000.interJoint, MainCode.interJoint]

theorem emitted_writes_formula_witness :
    (2 : Int) ≠ 0 ∧ emittedFormulaProp ⟨0, 0, 0, 0, 0⟩ ⟨10, -7, 0, 0, 0⟩ 10 2 :=
  ⟨by decide, emitted_writes_formula ⟨0, 0, 0, 0, 0⟩ ⟨10, -7, 0, 0, 0⟩ 10 2 (by decide)⟩

/-- C6 counterexample: with target equal to the current pose the code
issues two emissions, not one — the loop runs once with t = 1 and then
the snap-to-target writes again; and with step size 0 the unguarded
division faults instead of emitting at all. -/
theorem idempotent_emissions_cex :
    (MainCode.moveToPose MainCode.homePose MainCode.homePose 10 2).map
        (fun r => (writesOf r.1).length) = some 2 ∧
    (2 : Nat) ≠ 1 ∧
    Part000.moveToPose Part000.homePose Part000.homePose 10 0 = none := by
  decide

/-- C6 amended: for every call with a nonzero step size in which the
target equals the current pose, `moveToPose` (both variants) performs
exactly two emissions — the single loop iteration at t = 1 and the final
snap-to-target — both equal to the current pose, one delay, and
reassigns `currentPose` to its old value, so no observable joint change
occurs. -/
theorem moveToPose_self_target (cur : Pose) (ms ss : Int) (h : ss ≠ 0) :
    MainCode.moveToPose cur cur ms ss =
      some ([Ev.write cur, Ev.delayEv ms, Ev.setCurrent cur, Ev.write cur], cur) ∧
    Part000.moveToPose cur cur ms ss =
      some ([Ev.write cur, Ev.delayEv ms, Ev.setCurrent cur, Ev.write cur], cur) := by
  have hmd : maxDeltaOf cur cur = 0 := by
    simp [maxDeltaOf, max5]
  have hsv : stepsVal (maxDeltaOf cur cur) ss = 1 := by
    rw [hmd]
    simp [stepsVal, Int.zero_tdiv]
  constructor
  · rw [MainCode.moveToPose_eq_mc cur cur ms ss h, hsv]
    simp [moveEvents, interpEvents, MainCode.intermediate, MainCode.interJoint,
      Int.tdiv_one]
  · rw [Part000.moveToPose_eq_p0 cur cur ms ss h, hsv]
    simp [moveEvents, interpEvents, Part000.intermediate, Part000.interJoint,
      Int.tdiv_one]

theorem moveToPose_self_target_witness :
    (2 : Int) ≠ 0 ∧
    (MainCode.moveToPose MainCode.homePose MainCode.homePose 10 2 =
      some ([Ev.write MainCode.homePose, Ev.delayEv 10, Ev.setCurrent MainCode.homePose,
        Ev.write MainCode.homePose], MainCode.homePose) ∧
    Part000.moveToPose MainCode.homePose MainCode.homePose 10 2 =
      some ([Ev.write MainCode.homePose, Ev.delayEv 10, Ev.setCurrent MainCode.homePose,
        Ev.write MainCode.homePose], MainCode.homePose)) :=
  ⟨by decide, moveToPose_self_target MainCode.homePose 10 2 (by decide)⟩

/-- C7: For every invocation whose step count is computed (nonzero step
size), `moveToPose` issues exactly steps + 1 writes to the Pose Writer
and exactly steps blocking delays, and assigns `currentPose` exactly
once, at the end of the move (followed only by the final write), with
its final value the target — in both variants. -/
theorem moveToPose_side_effects (cur tgt : Pose) (ms ss : Int) (h : ss ≠ 0) :
    (MainCode.moveToPose cur tgt ms ss).elim False
        (moveTraceSpec tgt (stepsVal (maxDeltaOf cur tgt) ss).toNat) ∧
    (Part000.moveToPose cur tgt ms ss).elim False
        (moveTraceSpec tgt (stepsVal (maxDeltaOf cur tgt) ss).toNat) := by
  constructor
  · rw [MainCode.moveToPose_eq_mc cur tgt ms ss h]
    simp only [Option.elim, moveTraceSpec]
    refine ⟨?_, ?_, setCurrentsOf_moveEvents _ _ _ _, drop_moveEvents _ _ _ _, trivial⟩
    · simp [writesOf_moveEvents]
    · simp [delaysOf_moveEvents]
  · rw [Part000.moveToPose_eq_p0 cur tgt ms ss h]
    simp only [Option.elim, moveTraceSpec]
    refine ⟨?_, ?_, setCurrentsOf_moveEvents _ _ _ _, drop_moveEvents _ _ _ _, trivial⟩
    · simp [writesOf_moveEvents]
    · simp [delaysOf_moveEvents]

theorem moveToPose_side_effects_witness :
    (2 : Int) ≠ 0 ∧
    ((MainCode.moveToPose ⟨0, 0, 0, 0, 0⟩ ⟨10, 0, 0, 0, 0⟩ 1 2).elim False
        (moveTraceSpec ⟨10, 0, 0, 0, 0⟩
          (stepsVal (maxDeltaOf ⟨0, 0, 0, 0, 0⟩ ⟨10, 0, 0, 0, 0⟩) 2).toNat) ∧
      (Part000.moveToPose ⟨0, 0, 0, 0, 0⟩ ⟨10, 0, 0, 0, 0⟩ 1 2).elim False
        (moveTraceSpec ⟨10, 0, 0, 0, 0⟩
          (stepsVal (maxDeltaOf ⟨0, 0, 0, 0, 0⟩ ⟨10, 0, 0, 0, 0⟩) 2).toNat)) :=
  ⟨by decide, moveToPose_side_effects ⟨0, 0, 0, 0, 0⟩ ⟨10, 0, 0, 0, 0⟩ 1 2 (by decide)⟩

/-- C8 counterexample: the line "180 0 100 0 9 7" has six integer tokens,
not five, yet `debugMove` reports no format error: `sscanf` succeeds on
the first five conversions, so a full move is executed (five emissions
here) and `currentPose` changes to the parsed values. -/
theorem debugMove_token_count_cex :
    fiveIntLine ("180 0 100 0 9 7".toList) = false ∧
    (Part000.debugMove Part000.homePose ("180 0 100 0 9 7".toList)).map
        (fun r => ((writesOf r.1).length, r.2)) = some (5, ⟨180, 0, 100, 0, 9⟩) ∧
    (⟨180, 0, 100, 0, 9⟩ : Pose) ≠ Part000.homePose := by
  decide

/-- C8 amended: `debugMove` reports a format error and produces no motion
(no emission, no delay, `currentPose` untouched) exactly when fewer than
five leading `%d` conversions succeed on the trimmed line — not when the
token count differs from five; whenever the five conversions succeed the
parsed values become the move target (extra trailing tokens are
ignored), and the move completes with `currentPose` equal to them. -/
theorem debugMove_parse_behavior (cur : Pose) (line : List Char) :
    (Part000.debugMove cur line).map Prod.snd =
      (sscanf5 (trim line)).map
        (fun v => (⟨v.1, v.2.1, v.2.2.1, v.2.2.2.1, v.2.2.2.2⟩ : Pose)) ∧
    (Part000.debugMove cur line).isNone = (sscanf5 (trim line)).isNone := by
  cases h : sscanf5 (trim line) with
  | none => simp [Part000.debugMove, h]
  | some v =>
      obtain ⟨b, s, e, w, g⟩ := v
      have hd : Part000.debugMove cur line = Part000.moveToPose cur ⟨b, s, e, w, g⟩ 8 2 := by
        simp [Part000.debugMove, h]
      rw [hd, Part000.moveToPose_eq_p0 cur ⟨b, s, e, w, g⟩ 8 2 (by decide)]
      simp

/-- C9: `openGripper` and `closeGripper` (both variants) move to a target
equal to the current pose with only the gripper field replaced by the
configured open/close angle; after completion base, shoulder, elbow and
wrist are unchanged and the gripper equals the configured angle. -/
theorem gripper_helpers_frame (cur : Pose) (ms : Int) :
    (MainCode.openGripper cur ms).map Prod.snd =
      some ⟨cur.base, cur.shoulder, cur.elbow, cur.wrist, MainCode.GRIPPER_OPEN⟩ ∧
    (MainCode.closeGripper cur ms).map Prod.snd =
      some ⟨cur.base, cur.shoulder, cur.elbow, cur.wrist, MainCode.GRIPPER_CLOSE⟩ ∧
    (Part000.openGripper cur ms).map Prod.snd =
      some ⟨cur.base, cur.shoulder, cur.elbow, cur.wrist, Part000.GRIPPER_OPEN⟩ ∧
    (Part000.closeGripper cur ms).map Prod.snd =
      some ⟨cur.base, cur.shoulder, cur.elbow, cur.wrist, Part000.GRIPPER_CLOSE⟩ :=
  ⟨MainCode.moveToPose_snd_mc cur _ ms 2 (by decide),
    MainCode.moveToPose_snd_mc cur _ ms 2 (by decide),
    Part000.moveToPose_snd_p0 cur _ ms 2 (by decide),
    Part000.moveToPose_snd_p0 cur _ ms 2 (by decide)⟩

/-- C10: for every start and target pose and positive step size, the
intermediate poses computed by `moveToPose` (before clamping, in both
variants) are per-joint monotone in the step index — non-decreasing for
non-negative deltas, non-increasing for non-positive ones — and every
intermediate joint value stays between the start and target values
inclusive, so the interpolation never overshoots. -/
theorem interp_monotone_bounded (cur tgt : Pose) (ms ss i j : Int)
    (hss : 0 < ss) (h1 : 1 ≤ i) (hij : i ≤ j)
    (hjn : j ≤ stepsVal (maxDeltaOf cur tgt) ss) :
    interpMonoProp cur tgt ms ss i j := by
  have hq : 0 < stepsVal (maxDeltaOf cur tgt) ss := by
    have := one_le_stepsVal (maxDeltaOf cur tgt) ss
    omega
  simp only [interpMonoProp]
  refine ⟨?_, ?_, ?_, ?_⟩
  · rw [MainCode.moveToPose_eq_mc cur tgt ms ss (by omega)]
    simp [writesOf_moveEvents]
  · rw [Part000.moveToPose_eq_p0 cur tgt ms ss (by omega)]
    simp [writesOf_moveEvents]
  · exact MainCode.intermediate_monoBetween_mc cur tgt i j _ hq h1 hij hjn
  · exact Part000.intermediate_monoBetween_p0 cur tgt i j _ hq h1 hij hjn

theorem interp_monotone_bounded_witness :
    (0 : Int) < 2 ∧ (1 : Int) ≤ 1 ∧ (1 : Int) ≤ 2 ∧
    (2 : Int) ≤ stepsVal (maxDeltaOf ⟨0, 0, 0, 0, 0⟩ ⟨4, -4, 0, 0, 0⟩) 2 ∧
    interpMonoProp ⟨0, 0, 0, 0, 0⟩ ⟨4, -4, 0, 0, 0⟩ 7 2 1 2 :=
  ⟨by decide, by decide, by decide, by decide,
    interp_monotone_bounded ⟨0, 0, 0, 0, 0⟩ ⟨4, -4, 0, 0, 0⟩ 7 2 1 2
      (by decide) (by decide) (by decide) (by decide)⟩
